import Mathlib

/-!
Glyph cache and text renderer (`src/src/TextRenderer.h`, `src/src/TextRenderer.cpp`).

Shallow embedding of `TextRenderer::Init` and `TextRenderer::RenderText`.

Conventions of the embedding:

* `float` values are exact rationals (`ℚ`); the conversions `int → float` and
  `long → float` are the casts `Int → ℚ`.
* `char`, `int` and `FT_Pos` values are `Int`; `unsigned int` values are `Nat`.
  The one narrowing conversion of the code, `unsigned int → int` inside
  `glm::ivec2(width, rows)`, is `toInt32`.  The `int` subtraction
  `Size.y - Bearing.y` is taken without overflow (overflow is undefined in C++).
* `std::map<char, Character>` is an association list with the three operations
  the code uses: `find?` (membership), `insert` (which keeps an existing entry)
  and `index` (`operator[]`, which inserts a value-initialised entry for an
  absent key).
* OpenGL is an output: the renderer returns the list of commands it issued, in
  order.  FreeType is an input: the outcome of each library call is a field of
  `FreeType`.
-/

namespace TextRenderer

/-! ## Data model (`TextRenderer.h`) -/

/-- Two `int` components, `glm::ivec2`. -/
structure IVec2 where
  x : Int
  y : Int
deriving DecidableEq, Repr

/-- The `struct Character` of `TextRenderer.h:13-18`. -/
structure Character where
  TextureID : Nat
  Size : IVec2
  Bearing : IVec2
  Advance : Int
deriving DecidableEq, Repr

/-- The value-initialised `Character` (every member zero), which is what
`std::map::operator[]` stores for a key that was absent. -/
def Character.zero : Character :=
  { TextureID := 0, Size := ⟨0, 0⟩, Bearing := ⟨0, 0⟩, Advance := 0 }

/-- The member `characters_`, a `std::map<char, Character>`, as an association
list; the first pair with a given key is the entry of that key. -/
abbrev CharMap := List (Int × Character)

/-- The entry stored under key `k`, if there is one (`std::map::find`). -/
def CharMap.find? (m : CharMap) (k : Int) : Option Character :=
  List.lookup k m

/-- Membership of a key (`std::map::count(k) == 1`). -/
def CharMap.contains (m : CharMap) (k : Int) : Bool :=
  (m.find? k).isSome

/-- The call `std::map::insert(std::pair(k, v))`: adds the entry when the key is
absent and leaves the map unchanged when the key is already present. -/
def CharMap.insert (m : CharMap) (k : Int) (v : Character) : CharMap :=
  match m.find? k with
  | some _ => m
  | none => m ++ [(k, v)]

/-- The call `characters_[k]` (`std::map::operator[]`): returns the entry of
`k`; when `k` is absent it first inserts a value-initialised `Character` under
`k`.  The result is the value read and the map afterwards. -/
def CharMap.index (m : CharMap) (k : Int) : Character × CharMap :=
  match m.find? k with
  | some ch => (ch, m)
  | none => (Character.zero, m ++ [(k, Character.zero)])

/-- The value the expression `characters_[k]` yields: the entry of `k`, or the
value-initialised `Character` when `k` is absent. -/
def CharMap.glyph (m : CharMap) (k : Int) : Character :=
  (m.index k).1

/-! ## OpenGL commands issued by `RenderText` -/

/-- One row of `float vertices[6][4]`: position `(x, y)` and texture
coordinate `(u, v)`. -/
structure Vertex where
  x : ℚ
  y : ℚ
  u : ℚ
  v : ℚ
deriving DecidableEq

/-- The two uniforms `RenderText` sets. -/
inductive Uniform where
  | time
  | scale
deriving DecidableEq

/-- The OpenGL calls made by `RenderText`, with their arguments. -/
inductive GLCmd where
  /-- The call `shader.use()`. -/
  | shaderUse (program : Nat)
  /-- The call `glUniform1f(glGetUniformLocation(program, name), value)`. -/
  | uniform1f (program : Nat) (name : Uniform) (value : ℚ)
  /-- The call `glActiveTexture(GL_TEXTURE0)`. -/
  | activeTexture0
  /-- The call `glBindVertexArray(vao)`. -/
  | bindVertexArray (vao : Nat)
  /-- The call `glBindTexture(GL_TEXTURE_2D, texture)`. -/
  | bindTexture (texture : Nat)
  /-- The call `glBindBuffer(GL_ARRAY_BUFFER, buffer)`. -/
  | bindBuffer (buffer : Nat)
  /-- The call `glBufferSubData(GL_ARRAY_BUFFER, 0, sizeof(vertices), vertices)`. -/
  | bufferSubData (vertices : List Vertex)
  /-- The call `glDrawArrays(GL_TRIANGLES, first, count)`. -/
  | drawArrays (first : Nat) (count : Nat)
deriving DecidableEq

/-! ## `TextRenderer::RenderText` (`TextRenderer.cpp:80-126`) -/

/-- The array `vertices[6][4]` of `TextRenderer.cpp:99-113` for glyph `ch` with
the pen at `(x, y)`. -/
def quadVertices (ch : Character) (x y scale : ℚ) : List Vertex :=
  let xpos : ℚ := x + (ch.Bearing.x : ℚ) * scale
  let ypos : ℚ := y - ((ch.Size.y - ch.Bearing.y : Int) : ℚ) * scale
  let w : ℚ := (ch.Size.x : ℚ) * scale
  let h : ℚ := (ch.Size.y : ℚ) * scale
  [ ⟨xpos,     ypos + h, 0, 0⟩,
    ⟨xpos,     ypos,     0, 1⟩,
    ⟨xpos + w, ypos,     1, 1⟩,
    ⟨xpos,     ypos + h, 0, 0⟩,
    ⟨xpos + w, ypos,     1, 1⟩,
    ⟨xpos + w, ypos + h, 1, 0⟩ ]

/-- The pen step of `TextRenderer.cpp:122`: `(ch.Advance >> 6) * scale`. -/
def penStep (ch : Character) (scale : ℚ) : ℚ :=
  ((ch.Advance >>> (6 : Nat) : Int) : ℚ) * scale

/-- The OpenGL calls of one loop iteration, `TextRenderer.cpp:115-120`. -/
def glyphCmds (VBO : Nat) (ch : Character) (x y scale : ℚ) : List GLCmd :=
  [ GLCmd.bindTexture ch.TextureID,
    GLCmd.bindBuffer VBO,
    GLCmd.bufferSubData (quadVertices ch x y scale),
    GLCmd.bindBuffer 0,
    GLCmd.drawArrays 0 6 ]

/-- What `RenderText` leaves behind: the final value of its local `x` (the pen),
the member `characters_`, and the OpenGL calls it made, in order. -/
structure RenderResult where
  pen : ℚ
  characters_ : CharMap
  gl : List GLCmd

/-- The loop `for (c = text.begin(); c != text.end(); c++)` of
`TextRenderer.cpp:95-123`, started with cache `m` and pen `x`. -/
def renderLoop (VBO : Nat) (y scale : ℚ) : List Int → CharMap → ℚ → RenderResult
  | [], m, x => { pen := x, characters_ := m, gl := [] }
  | c :: cs, m, x =>
    let r := m.index c
    let ch := r.1
    let rest := renderLoop VBO y scale cs r.2 (x + penStep ch scale)
    { rest with gl := glyphCmds VBO ch x y scale ++ rest.gl }

/-- The calls before the loop, `TextRenderer.cpp:85-91`; `time` is the value of
`glfwGetTime() * 3`. -/
def renderPrologue (program VAO : Nat) (time : ℚ) : List GLCmd :=
  [ GLCmd.shaderUse program,
    GLCmd.uniform1f program Uniform.time time,
    GLCmd.uniform1f program Uniform.scale (1 / 100),
    GLCmd.activeTexture0,
    GLCmd.bindVertexArray VAO ]

/-- The calls after the loop, `TextRenderer.cpp:124-125`. -/
def renderEpilogue : List GLCmd :=
  [ GLCmd.bindVertexArray 0, GLCmd.bindTexture 0 ]

/-- The method `TextRenderer::RenderText(shader, text, x, y, scale, VAO, VBO)`
run on the member `characters_`; `program` is `shader.ID` and `time` the clock
value sent as the `time` uniform. -/
def RenderText (characters_ : CharMap) (program : Nat) (time : ℚ) (text : List Int)
    (x y scale : ℚ) (VAO VBO : Nat) : RenderResult :=
  let r := renderLoop VBO y scale text characters_ x
  { r with gl := renderPrologue program VAO time ++ r.gl ++ renderEpilogue }

/-! ## `TextRenderer::Init` (`TextRenderer.cpp:9-78`) -/

/-- The members of `face->glyph` that `Init` reads after a successful
`FT_Load_Char(face, c, FT_LOAD_RENDER)`: `bitmap.width` and `bitmap.rows`
(`unsigned int`), `bitmap_left` and `bitmap_top` (`FT_Int`), `advance.x`
(`FT_Pos`). -/
structure GlyphSlot where
  width : Nat
  rows : Nat
  bitmap_left : Int
  bitmap_top : Int
  advance_x : Int
deriving DecidableEq

/-- The outcomes of the FreeType calls of `Init`: the error codes returned by
`FT_Init_FreeType` and `FT_New_Face` (zero is success), and the rasterizer as a
function of the character code, `none` when `FT_Load_Char` returns a non-zero
error code. -/
structure FreeType where
  initError : Int
  newFaceError : Int
  loadChar : Nat → Option GlyphSlot

/-- The conversion `unsigned int → int` made by `glm::ivec2(width, rows)`. -/
def toInt32 (n : Nat) : Int :=
  if n % 2 ^ 32 < 2 ^ 31 then ((n % 2 ^ 32 : Nat) : Int) else ((n % 2 ^ 32 : Nat) : Int) - 2 ^ 32

/-- The conversion `int → bool` applied to the operand of a `return` in a
function returning `bool`: every non-zero value is `true`. -/
def boolOfInt (n : Int) : Bool :=
  n != 0

/-- The `Character` built at `TextRenderer.cpp:63-68` from the loaded glyph. -/
def characterOf (texture : Nat) (g : GlyphSlot) : Character :=
  { TextureID := texture,
    Size := ⟨toInt32 g.width, toInt32 g.rows⟩,
    Bearing := ⟨g.bitmap_left, g.bitmap_top⟩,
    Advance := g.advance_x }

/-- State of the loop of `Init`: the member `characters_` and the number of
textures generated so far. -/
structure InitState where
  characters_ : CharMap
  textures : Nat

/-- One iteration of `for (unsigned char c = 0; c < 128; c++)`,
`TextRenderer.cpp:36-69`; `genTexture n` is the name `glGenTextures` returns on
its call number `n`.  A failed load takes the `continue`. -/
def initBody (ft : FreeType) (genTexture : Nat → Nat) (s : InitState) (c : Nat) : InitState :=
  match ft.loadChar c with
  | none => s
  | some g =>
    let texture := genTexture s.textures
    { characters_ := s.characters_.insert (c : Int) (characterOf texture g),
      textures := s.textures + 1 }

/-- The method `TextRenderer::Init()` run on the member `characters_`: the value
it returns and `characters_` afterwards. -/
def Init (ft : FreeType) (genTexture : Nat → Nat) (characters_ : CharMap) : Bool × CharMap :=
  if ft.initError ≠ 0 then (false, characters_)
  else if ft.newFaceError ≠ 0 then (false, characters_)
  else if (ft.loadChar 'X'.toNat).isNone then (boolOfInt (-1), characters_)
  else (true, ((List.range 128).foldl (initBody ft genTexture) ⟨characters_, 0⟩).characters_)

/-! ## Reading the command list -/

/-- The part of the OpenGL state a draw call of `RenderText` depends on: the
texture bound to `GL_TEXTURE_2D` and the contents of the quad vertex buffer. -/
structure GLState where
  texture : Nat
  buffer : List Vertex

/-- The parameters of one draw call: the texture bound when it is issued and the
`count` vertices it reads from the quad vertex buffer. -/
structure Draw where
  texture : Nat
  vertices : List Vertex
deriving DecidableEq

/-- Effect of one command on the tracked OpenGL state. -/
def glStep (st : GLState) : GLCmd → GLState
  | GLCmd.bindTexture t => { st with texture := t }
  | GLCmd.bufferSubData vs => { st with buffer := vs }
  | _ => st

/-- The draw calls of a command list, each with the texture and buffer contents
in force when it is issued.  The vertex array is taken to read from the buffer
that `glBufferSubData` writes, as `main.cpp:235-243` sets it up. -/
def draws : GLState → List GLCmd → List Draw
  | _, [] => []
  | st, GLCmd.drawArrays first count :: cmds =>
    { texture := st.texture, vertices := (st.buffer.drop first).take count } :: draws st cmds
  | st, cmd :: cmds => draws (glStep st cmd) cmds

/-- The vertex arrays written with `glBufferSubData`, in order. -/
def bufferWrites : List GLCmd → List (List Vertex)
  | [] => []
  | GLCmd.bufferSubData vs :: cmds => vs :: bufferWrites cmds
  | _ :: cmds => bufferWrites cmds

/-- The `(first, count)` arguments of the `glDrawArrays` calls, in order. -/
def drawArgs : List GLCmd → List (Nat × Nat)
  | [] => []
  | GLCmd.drawArrays first count :: cmds => (first, count) :: drawArgs cmds
  | _ :: cmds => drawArgs cmds

/-- Positions `(x, y)` of the vertices of a quad that carry the texture
coordinate `(u, v)`. -/
def positionsAt (vs : List Vertex) (u v : ℚ) : List (ℚ × ℚ) :=
  (vs.filter (fun p => p.u = u ∧ p.v = v)).map (fun p => (p.x, p.y))

/-- The x coordinates of the vertices on the left edge of the glyph bitmap
(texture coordinate `u = 0`). -/
def leftEdge (vs : List Vertex) : List ℚ :=
  (vs.filter (fun p => p.u = 0)).map Vertex.x

/-- Largest element of a list (zero for the empty list). -/
def maxOf : List ℚ → ℚ
  | [] => 0
  | a :: as => as.foldl max a

/-- Smallest element of a list (zero for the empty list). -/
def minOf : List ℚ → ℚ
  | [] => 0
  | a :: as => as.foldl min a

/-- Width of a quad: the difference between its maximum and minimum vertex x. -/
def quadWidth (vs : List Vertex) : ℚ :=
  maxOf (vs.map Vertex.x) - minOf (vs.map Vertex.x)

/-- Height of a quad: the difference between its maximum and minimum vertex y. -/
def quadHeight (vs : List Vertex) : ℚ :=
  maxOf (vs.map Vertex.y) - minOf (vs.map Vertex.y)

/-- The value of a character of a string literal as a `char`. -/
def charCode (c : Char) : Int :=
  (c.toNat : Int)

/-! ## Formulas of the specification, for comparison with the code -/

/-- The horizontal advance the specification gives for a text: the sum over its
bytes of `(advance / 64) · scale`, with exact division. -/
def specAdvance (m : CharMap) (text : List Int) (scale : ℚ) : ℚ :=
  (text.map (fun c => ((m.glyph c).Advance : ℚ) / 64 * scale)).sum

/-- The x-origin the specification gives for the second quad of the text "AB"
drawn at origin `(0, 0)` with scale 1:
`bearing.x('A') + advance('A') / 64 + bearing.x('B')`. -/
def specSecondOrigin (m : CharMap) : ℚ :=
  ((m.glyph (charCode 'A')).Bearing.x : ℚ) + ((m.glyph (charCode 'A')).Advance : ℚ) / 64
    + ((m.glyph (charCode 'B')).Bearing.x : ℚ)

/-- The screen position the specification gives for the top-left of the glyph
bitmap: `(pen.x + bearing.x·scale, pen.y − (size.y − bearing.y)·scale)`. -/
def specTopLeft (ch : Character) (x y scale : ℚ) : ℚ × ℚ :=
  (x + (ch.Bearing.x : ℚ) * scale, y - ((ch.Size.y : ℚ) - (ch.Bearing.y : ℚ)) * scale)

/-! ## Concrete caches -/

/-- A cache with one glyph, `'A'`, whose advance is one and a half pixels. -/
def cacheA : CharMap :=
  [ (charCode 'A', { TextureID := 1, Size := ⟨10, 12⟩, Bearing := ⟨1, 11⟩, Advance := 96 }) ]

/-- A cache with `'A'` and `'B'`, whole-pixel advances, `'A'` with bearing 1. -/
def cacheAB : CharMap :=
  [ (charCode 'A', { TextureID := 1, Size := ⟨10, 12⟩, Bearing := ⟨1, 11⟩, Advance := 64 }),
    (charCode 'B', { TextureID := 2, Size := ⟨9, 12⟩, Bearing := ⟨2, 12⟩, Advance := 640 }) ]

/-- A cache with `'A'` and `'B'`, `'A'` with bearing 0 and a fractional advance. -/
def cacheAB2 : CharMap :=
  [ (charCode 'A', { TextureID := 1, Size := ⟨10, 12⟩, Bearing := ⟨0, 11⟩, Advance := 96 }),
    (charCode 'B', { TextureID := 2, Size := ⟨9, 12⟩, Bearing := ⟨2, 12⟩, Advance := 640 }) ]

/-- A glyph one pixel high sitting on the baseline. -/
def glyphOnBaseline : Character :=
  { TextureID := 3, Size := ⟨1, 1⟩, Bearing := ⟨0, 1⟩, Advance := 64 }

/-- A cache holding `glyphOnBaseline` under `'A'`. -/
def cacheBaseline : CharMap :=
  [ (charCode 'A', glyphOnBaseline) ]

/-- FreeType outcomes where the library initialises and the face opens, but
loading the glyph of `'X'` fails (every other code point loads). -/
def ftProbeFails : FreeType :=
  { initError := 0,
    newFaceError := 0,
    loadChar := fun c => if c = 'X'.toNat then none else some ⟨10, 12, 1, 11, 640⟩ }

/-- FreeType outcomes where `FT_Init_FreeType` fails with error code 1. -/
def ftInitFails : FreeType :=
  { initError := 1, newFaceError := 0, loadChar := fun _ => some ⟨10, 12, 1, 11, 640⟩ }

/-- FreeType outcomes where `FT_New_Face` fails with error code 1. -/
def ftFaceFails : FreeType :=
  { initError := 0, newFaceError := 1, loadChar := fun _ => some ⟨10, 12, 1, 11, 640⟩ }

/-- FreeType outcomes where the setup succeeds and exactly the even code points
load, code point `c` with a bitmap `c` pixels wide. -/
def ftEven : FreeType :=
  { initError := 0,
    newFaceError := 0,
    loadChar := fun c => if c % 2 = 0 then some ⟨c, 12, 1, 11, 640⟩ else none }

/-- The OpenGL state before any call of `RenderText`: texture 0 bound, the quad
buffer allocated by `glBufferData(..., NULL, ...)` with no data. -/
def glInitial : GLState :=
  { texture := 0, buffer := [] }

/-! ## The map operations -/

theorem find?_append_single (m : CharMap) (c k : Int) (v : Character) :
    CharMap.find? (m ++ [(c, v)]) k
      = match m.find? k with
        | some w => some w
        | none => if k = c then some v else none := by
  unfold CharMap.find?
  rw [List.lookup_append]
  cases h : List.lookup k m with
  | some w => simp
  | none =>
    by_cases hk : k = c
    · subst hk; simp
    · have hb : (k == c) = false := by simpa using hk
      simp [List.lookup_cons, hk, hb]

theorem glyph_eq (m : CharMap) (k : Int) :
    m.glyph k = (m.find? k).getD Character.zero := by
  unfold CharMap.glyph CharMap.index
  cases h : m.find? k <;> simp

theorem glyph_of_find? {m : CharMap} {k : Int} {ch : Character} (h : m.find? k = some ch) :
    m.glyph k = ch := by
  simp [glyph_eq, h]

theorem glyph_of_absent {m : CharMap} {k : Int} (h : m.find? k = none) :
    m.glyph k = Character.zero := by
  simp [glyph_eq, h]

theorem index_snd_of_present {m : CharMap} {c : Int} (h : m.contains c = true) :
    (m.index c).2 = m := by
  unfold CharMap.contains at h
  unfold CharMap.index
  cases hf : m.find? c with
  | some w => rfl
  | none => simp [hf] at h

theorem find?_index (m : CharMap) (c k : Int) :
    (m.index c).2.find? k
      = match m.find? k with
        | some w => some w
        | none => if k = c then some Character.zero else none := by
  unfold CharMap.index
  cases hc : m.find? c with
  | some w =>
    cases hk : m.find? k with
    | some u => rfl
    | none =>
      have hne : k ≠ c := by
        intro e
        rw [e, hc] at hk
        cases hk
      simp [hk, hne]
  | none => exact find?_append_single m c k Character.zero

theorem glyph_index (m : CharMap) (c k : Int) : (m.index c).2.glyph k = m.glyph k := by
  rw [glyph_eq, glyph_eq, find?_index]
  cases hk : m.find? k with
  | some w => rfl
  | none =>
    by_cases e : k = c
    · simp [e]
    · simp [e]

theorem find?_insert (m : CharMap) (c k : Int) (v : Character) :
    (m.insert c v).find? k
      = match m.find? k with
        | some w => some w
        | none => if k = c then some v else none := by
  unfold CharMap.insert
  cases hc : m.find? c with
  | some w =>
    cases hk : m.find? k with
    | some u => simp [hk]
    | none =>
      have hne : k ≠ c := by
        intro e
        rw [e, hc] at hk
        cases hk
      simp [hk, hne]
  | none => exact find?_append_single m c k v

/-! ## The render loop -/

theorem renderLoop_nil (VBO : Nat) (y scale : ℚ) (m : CharMap) (x : ℚ) :
    renderLoop VBO y scale [] m x = { pen := x, characters_ := m, gl := [] } := rfl

theorem renderLoop_cons_pen (VBO : Nat) (y scale : ℚ) (c : Int) (cs : List Int)
    (m : CharMap) (x : ℚ) :
    (renderLoop VBO y scale (c :: cs) m x).pen
      = (renderLoop VBO y scale cs (m.index c).2 (x + penStep (m.glyph c) scale)).pen := rfl

theorem renderLoop_cons_characters (VBO : Nat) (y scale : ℚ) (c : Int) (cs : List Int)
    (m : CharMap) (x : ℚ) :
    (renderLoop VBO y scale (c :: cs) m x).characters_
      = (renderLoop VBO y scale cs (m.index c).2 (x + penStep (m.glyph c) scale)).characters_ :=
  rfl

theorem renderLoop_cons_gl (VBO : Nat) (y scale : ℚ) (c : Int) (cs : List Int)
    (m : CharMap) (x : ℚ) :
    (renderLoop VBO y scale (c :: cs) m x).gl
      = glyphCmds VBO (m.glyph c) x y scale
        ++ (renderLoop VBO y scale cs (m.index c).2 (x + penStep (m.glyph c) scale)).gl := rfl

/-- The loop never changes what `characters_[k]` yields, for any key. -/
theorem renderLoop_glyph (VBO : Nat) (y scale : ℚ) (text : List Int) :
    ∀ (m : CharMap) (x : ℚ) (k : Int),
      (renderLoop VBO y scale text m x).characters_.glyph k = m.glyph k := by
  induction text with
  | nil => intro m x k; rfl
  | cons c cs ih =>
    intro m x k
    rw [renderLoop_cons_characters, ih, glyph_index]

/-- Pen and commands of the loop depend on the cache only through what
`characters_[k]` yields. -/
theorem renderLoop_congr (VBO : Nat) (y scale : ℚ) (text : List Int) :
    ∀ (m n : CharMap) (x : ℚ), (∀ k, m.glyph k = n.glyph k) →
      (renderLoop VBO y scale text m x).pen = (renderLoop VBO y scale text n x).pen
      ∧ (renderLoop VBO y scale text m x).gl = (renderLoop VBO y scale text n x).gl := by
  induction text with
  | nil => intro m n x _; exact ⟨rfl, rfl⟩
  | cons c cs ih =>
    intro m n x h
    have h2 : ∀ k, (m.index c).2.glyph k = (n.index c).2.glyph k := by
      intro k
      rw [glyph_index, glyph_index, h]
    have := ih (m.index c).2 (n.index c).2 (x + penStep (m.glyph c) scale) h2
    rw [renderLoop_cons_pen, renderLoop_cons_pen, renderLoop_cons_gl, renderLoop_cons_gl,
      ← h c, this.1, this.2]
    exact ⟨rfl, rfl⟩

/-- The pen after the loop is the start plus the sum of the pen steps. -/
theorem renderLoop_pen (VBO : Nat) (y scale : ℚ) (text : List Int) :
    ∀ (m : CharMap) (x : ℚ),
      (renderLoop VBO y scale text m x).pen
        = x + (text.map (fun c => penStep (m.glyph c) scale)).sum := by
  induction text with
  | nil => intro m x; simp [renderLoop_nil]
  | cons c cs ih =>
    intro m x
    rw [renderLoop_cons_pen, ih]
    simp only [glyph_index, List.map_cons, List.sum_cons]
    ring

/-- Entries of the cache after the loop. -/
theorem renderLoop_find? (VBO : Nat) (y scale : ℚ) (text : List Int) :
    ∀ (m : CharMap) (x : ℚ) (k : Int),
      (renderLoop VBO y scale text m x).characters_.find? k
        = match m.find? k with
          | some w => some w
          | none => if k ∈ text then some Character.zero else none := by
  induction text with
  | nil => intro m x k; cases h : m.find? k <;> simp [renderLoop_nil, h]
  | cons c cs ih =>
    intro m x k
    rw [renderLoop_cons_characters, ih, find?_index]
    cases hk : m.find? k with
    | some w => rfl
    | none =>
      by_cases e : k = c
      · simp [e]
      · simp [e]

theorem renderLoop_characters_of_present (VBO : Nat) (y scale : ℚ) (text : List Int) :
    ∀ (m : CharMap) (x : ℚ), (∀ c ∈ text, m.contains c = true) →
      (renderLoop VBO y scale text m x).characters_ = m := by
  induction text with
  | nil => intro m x _; rfl
  | cons c cs ih =>
    intro m x h
    have hc : (m.index c).2 = m := index_snd_of_present (h c (List.mem_cons_self c cs))
    rw [renderLoop_cons_characters, hc]
    exact ih m _ (fun d hd => h d (List.mem_cons_of_mem c hd))


/-! ## Draw calls of a command list -/

theorem shiftRight_six (n : Int) : n >>> (6 : Nat) = ⌊(n : ℚ) / 64⌋ := by
  rw [Int.shiftRight_eq_div_pow]
  have h := Rat.floor_intCast_div_natCast n 64
  norm_num at h
  rw [h]
  norm_num

theorem draws_glyphCmds (st : GLState) (VBO : Nat) (ch : Character) (x y scale : ℚ)
    (rest : List GLCmd) :
    draws st (glyphCmds VBO ch x y scale ++ rest)
      = { texture := ch.TextureID, vertices := quadVertices ch x y scale }
        :: draws { texture := ch.TextureID, buffer := quadVertices ch x y scale } rest := by
  simp [glyphCmds, draws, glStep, quadVertices]

theorem draws_prologue (st : GLState) (program VAO : Nat) (time : ℚ) (rest : List GLCmd) :
    draws st (renderPrologue program VAO time ++ rest) = draws st rest := by
  simp [renderPrologue, draws, glStep]

theorem draws_epilogue (st : GLState) : draws st renderEpilogue = [] := by
  simp [renderEpilogue, draws, glStep]

theorem drawArgs_append (a b : List GLCmd) : drawArgs (a ++ b) = drawArgs a ++ drawArgs b := by
  induction a with
  | nil => rfl
  | cons cmd cmds ih => cases cmd <;> simp [drawArgs, ih]

theorem drawArgs_renderLoop (VBO : Nat) (y scale : ℚ) (text : List Int) :
    ∀ (m : CharMap) (x : ℚ),
      drawArgs (renderLoop VBO y scale text m x).gl = List.replicate text.length (0, 6) := by
  induction text with
  | nil => intro m x; rfl
  | cons c cs ih =>
    intro m x
    rw [renderLoop_cons_gl, drawArgs_append, ih]
    simp [glyphCmds, drawArgs, List.replicate_succ]

theorem draws_renderLoop_length (VBO : Nat) (y scale : ℚ) (text : List Int) :
    ∀ (m : CharMap) (x : ℚ) (st : GLState) (tail : List GLCmd),
      (∀ s, draws s tail = []) →
      (draws st ((renderLoop VBO y scale text m x).gl ++ tail)).length = text.length := by
  induction text with
  | nil => intro m x st tail h; simp [renderLoop_nil, h]
  | cons c cs ih =>
    intro m x st tail h
    rw [renderLoop_cons_gl, List.append_assoc, draws_glyphCmds, List.length_cons,
      ih _ _ _ tail h, List.length_cons]

/-- The draw call number `i` of the loop is the quad of byte `i`, placed at the
pen reached after the first `i` bytes. -/
theorem draws_renderLoop_getElem? (VBO : Nat) (y scale : ℚ) (text : List Int) :
    ∀ (m : CharMap) (x : ℚ) (st : GLState) (tail : List GLCmd) (i : Nat) (c : Int),
      text[i]? = some c →
      (draws st ((renderLoop VBO y scale text m x).gl ++ tail))[i]?
        = some { texture := (m.glyph c).TextureID,
                 vertices := quadVertices (m.glyph c)
                   (renderLoop VBO y scale (text.take i) m x).pen y scale } := by
  induction text with
  | nil => intro m x st tail i c h; simp at h
  | cons d ds ih =>
    intro m x st tail i c h
    rw [renderLoop_cons_gl, List.append_assoc, draws_glyphCmds]
    cases i with
    | zero =>
      simp only [List.getElem?_cons_zero, Option.some.injEq] at h
      subst h
      simp [renderLoop_nil]
    | succ j =>
      simp only [List.getElem?_cons_succ] at h
      rw [List.getElem?_cons_succ, ih _ _ _ tail j c h, List.take_succ_cons,
        renderLoop_cons_pen, glyph_index]

theorem RenderText_pen (characters_ : CharMap) (program : Nat) (time : ℚ) (text : List Int)
    (x y scale : ℚ) (VAO VBO : Nat) :
    (RenderText characters_ program time text x y scale VAO VBO).pen
      = (renderLoop VBO y scale text characters_ x).pen := rfl

theorem RenderText_characters (characters_ : CharMap) (program : Nat) (time : ℚ)
    (text : List Int) (x y scale : ℚ) (VAO VBO : Nat) :
    (RenderText characters_ program time text x y scale VAO VBO).characters_
      = (renderLoop VBO y scale text characters_ x).characters_ := rfl

theorem draws_RenderText (st : GLState) (characters_ : CharMap) (program : Nat) (time : ℚ)
    (text : List Int) (x y scale : ℚ) (VAO VBO : Nat) :
    draws st (RenderText characters_ program time text x y scale VAO VBO).gl
      = draws st ((renderLoop VBO y scale text characters_ x).gl ++ renderEpilogue) := by
  show draws st (renderPrologue program VAO time ++ _ ++ renderEpilogue) = _
  rw [List.append_assoc, draws_prologue]

theorem drawArgs_RenderText (characters_ : CharMap) (program : Nat) (time : ℚ)
    (text : List Int) (x y scale : ℚ) (VAO VBO : Nat) :
    drawArgs (RenderText characters_ program time text x y scale VAO VBO).gl
      = List.replicate text.length (0, 6) := by
  show drawArgs (renderPrologue program VAO time ++ _ ++ renderEpilogue) = _
  rw [drawArgs_append, drawArgs_append, drawArgs_renderLoop]
  simp [renderPrologue, renderEpilogue, drawArgs]

/-! ## Claims about `RenderText` -/

/-- C2. `RenderText` issues one draw call of 6 vertices per byte of the text, in
text order, whether or not the byte is a key of the cache: the number of draw
calls is the length of the text, every `glDrawArrays` call has arguments
`(0, 6)`, and draw call `i` carries the texture and the quad of byte `i` at the
pen reached after the first `i` bytes.  For the empty text there is no draw
call, nothing is written to the vertex buffer, and the pen stays at the
origin. -/
theorem RenderText_one_draw_per_byte (characters_ : CharMap) (program : Nat) (time : ℚ)
    (text : List Int) (x y scale : ℚ) (VAO VBO : Nat) (st : GLState) :
    (draws st (RenderText characters_ program time text x y scale VAO VBO).gl).length
        = text.length
    ∧ drawArgs (RenderText characters_ program time text x y scale VAO VBO).gl
        = List.replicate text.length (0, 6)
    ∧ (∀ (i : Nat) (c : Int), text[i]? = some c →
        (draws st (RenderText characters_ program time text x y scale VAO VBO).gl)[i]?
          = some { texture := (characters_.glyph c).TextureID,
                   vertices := quadVertices (characters_.glyph c)
                     (RenderText characters_ program time (text.take i) x y scale VAO VBO).pen
                     y scale })
    ∧ draws st (RenderText characters_ program time [] x y scale VAO VBO).gl = []
    ∧ bufferWrites (RenderText characters_ program time [] x y scale VAO VBO).gl = []
    ∧ (RenderText characters_ program time [] x y scale VAO VBO).pen = x := by
  refine ⟨?_, drawArgs_RenderText _ _ _ _ _ _ _ _ _, ?_, ?_, ?_, rfl⟩
  · rw [draws_RenderText]
    exact draws_renderLoop_length VBO y scale text characters_ x st _ draws_epilogue
  · intro i c h
    rw [draws_RenderText, RenderText_pen]
    exact draws_renderLoop_getElem? VBO y scale text characters_ x st _ i c h
  · rw [draws_RenderText]
    simp [renderLoop_nil, draws_epilogue]
  · simp [RenderText, renderLoop_nil, renderPrologue, renderEpilogue, bufferWrites]

/-- Witness for C2 on the text "AB" with the cache `cacheAB`: the second draw
call binds the texture of `'B'`. -/
theorem RenderText_one_draw_per_byte_witness :
    (draws glInitial
        (RenderText cacheAB 0 0 [charCode 'A', charCode 'B'] 0 0 1 0 0).gl)[1]?
      = some { texture := (cacheAB.glyph (charCode 'B')).TextureID,
               vertices := quadVertices (cacheAB.glyph (charCode 'B'))
                 (RenderText cacheAB 0 0
                   ([charCode 'A', charCode 'B'].take 1) 0 0 1 0 0).pen 0 1 } :=
  (RenderText_one_draw_per_byte cacheAB 0 0 [charCode 'A', charCode 'B'] 0 0 1 0 0
    glInitial).2.2.1 1 (charCode 'B') rfl


theorem penStep_eq_floor (ch : Character) (scale : ℚ) :
    penStep ch scale = (⌊(ch.Advance : ℚ) / 64⌋ : ℚ) * scale := by
  unfold penStep
  rw [shiftRight_six]

/-- C1, as amended.  The pen x after `RenderText` has processed the whole text is
the origin x plus the sum over the bytes of the text of `⌊advance / 64⌋ · scale`:
the code shifts the stored advance right by 6 bits before it multiplies, so each
glyph advances the pen by a whole number of pixels times the scale.  (A byte
absent from the cache counts with the zero advance of the entry `characters_[c]`
creates.) -/
theorem RenderText_pen_floor (characters_ : CharMap) (program : Nat) (time : ℚ)
    (text : List Int) (x y scale : ℚ) (VAO VBO : Nat) :
    (RenderText characters_ program time text x y scale VAO VBO).pen
      = x + (text.map
          (fun c => (⌊((characters_.glyph c).Advance : ℚ) / 64⌋ : ℚ) * scale)).sum := by
  rw [RenderText_pen, renderLoop_pen]
  simp only [penStep_eq_floor]

/-- C1 as stated fails: with `'A'` of advance 96 (one and a half pixels), scale 1
and origin 0 the text "A" is all in the cache, and the pen ends at 1, not at
`0 + 96/64 = 3/2`. -/
theorem RenderText_pen_exact_counterexample :
    (∀ c ∈ [charCode 'A'], cacheA.contains c = true)
    ∧ (0 : ℚ) < 1
    ∧ (RenderText cacheA 0 0 [charCode 'A'] 0 0 1 0 0).pen = 1
    ∧ (0 : ℚ) + specAdvance cacheA [charCode 'A'] 1 = 3 / 2
    ∧ (RenderText cacheA 0 0 [charCode 'A'] 0 0 1 0 0).pen
        ≠ 0 + specAdvance cacheA [charCode 'A'] 1 := by
  have hg : cacheA.glyph (charCode 'A')
      = { TextureID := 1, Size := ⟨10, 12⟩, Bearing := ⟨1, 11⟩, Advance := 96 } := rfl
  have hpen : (RenderText cacheA 0 0 [charCode 'A'] 0 0 1 0 0).pen = 1 := by
    rw [RenderText_pen, renderLoop_pen]
    simp only [List.map_cons, List.map_nil, List.sum_cons, List.sum_nil, hg, penStep,
      Int.shiftRight_eq_div_pow]
    norm_num
  have hspec : (0 : ℚ) + specAdvance cacheA [charCode 'A'] 1 = 3 / 2 := by
    simp only [specAdvance, List.map_cons, List.map_nil, List.sum_cons, List.sum_nil, hg]
    norm_num
  refine ⟨by decide, by norm_num, hpen, hspec, ?_⟩
  rw [hpen, hspec]
  norm_num

theorem leftEdge_quadVertices (ch : Character) (x y scale : ℚ) :
    leftEdge (quadVertices ch x y scale)
      = List.replicate 3 (x + (ch.Bearing.x : ℚ) * scale) := by
  simp [leftEdge, quadVertices, List.replicate]

/-- C3, as amended.  With entries for 'A' and 'B' in the cache, `RenderText` on
"AB" at origin `(0, 0)` with scale 1 issues exactly 2 draw calls, and the left
edge of the second quad (its three vertices with `u = 0`) is at
`⌊advance('A') / 64⌋ + bearing.x('B')`: the pen starts at the origin and moves by
whole-pixel advances only, so `bearing.x('A')` does not enter. -/
theorem RenderText_AB_second_origin (characters_ : CharMap) (program : Nat) (time : ℚ)
    (VAO VBO : Nat) (st : GLState) (a b : Character)
    (hA : characters_.find? (charCode 'A') = some a)
    (hB : characters_.find? (charCode 'B') = some b) :
    (draws st (RenderText characters_ program time [charCode 'A', charCode 'B']
        0 0 1 VAO VBO).gl).length = 2
    ∧ ∃ d, (draws st (RenderText characters_ program time [charCode 'A', charCode 'B']
        0 0 1 VAO VBO).gl)[1]? = some d
      ∧ d.texture = b.TextureID
      ∧ leftEdge d.vertices
          = List.replicate 3 ((⌊(a.Advance : ℚ) / 64⌋ : ℚ) + (b.Bearing.x : ℚ)) := by
  refine ⟨?_, ?_⟩
  · rw [draws_RenderText]
    exact draws_renderLoop_length VBO 0 1 _ characters_ 0 st _ draws_epilogue
  · rw [draws_RenderText,
      draws_renderLoop_getElem? VBO 0 1 _ characters_ 0 st _ 1 (charCode 'B') rfl]
    refine ⟨_, rfl, ?_, ?_⟩
    · simp [glyph_of_find? hB]
    · have hpen : (renderLoop VBO 0 1 (List.take 1 [charCode 'A', charCode 'B'])
          characters_ 0).pen = (⌊(a.Advance : ℚ) / 64⌋ : ℚ) := by
        rw [renderLoop_pen]
        simp [glyph_of_find? hA, penStep_eq_floor]
      simp only [leftEdge_quadVertices, hpen, glyph_of_find? hB, mul_one]

/-- Witness for C3 on the cache `cacheAB2`. -/
theorem RenderText_AB_second_origin_witness :
    (draws glInitial (RenderText cacheAB2 0 0 [charCode 'A', charCode 'B']
        0 0 1 0 0).gl).length = 2
    ∧ ∃ d, (draws glInitial (RenderText cacheAB2 0 0 [charCode 'A', charCode 'B']
        0 0 1 0 0).gl)[1]? = some d
      ∧ d.texture = 2
      ∧ leftEdge d.vertices
          = List.replicate 3 ((⌊((96 : Int) : ℚ) / 64⌋ : ℚ) + ((2 : Int) : ℚ)) :=
  RenderText_AB_second_origin cacheAB2 0 0 0 0 glInitial
    { TextureID := 1, Size := ⟨10, 12⟩, Bearing := ⟨0, 11⟩, Advance := 96 }
    { TextureID := 2, Size := ⟨9, 12⟩, Bearing := ⟨2, 12⟩, Advance := 640 } rfl rfl

theorem second_leftEdge (m : CharMap) (a b : Character)
    (hA : m.find? (charCode 'A') = some a) (hB : m.find? (charCode 'B') = some b) :
    (draws glInitial (RenderText m 0 0 [charCode 'A', charCode 'B'] 0 0 1 0 0).gl)[1]?
      = some { texture := b.TextureID,
               vertices := quadVertices b ((⌊(a.Advance : ℚ) / 64⌋ : ℚ)) 0 1 } := by
  rw [draws_RenderText,
    draws_renderLoop_getElem? 0 0 1 _ m 0 glInitial _ 1 (charCode 'B') rfl]
  have hpen : (renderLoop 0 0 1 (List.take 1 [charCode 'A', charCode 'B']) m 0).pen
      = (⌊(a.Advance : ℚ) / 64⌋ : ℚ) := by
    rw [renderLoop_pen]
    simp [glyph_of_find? hA, penStep_eq_floor]
  rw [hpen, glyph_of_find? hB]

/-- C3 as stated fails.  In `cacheAB` ('A' with bearing.x 1 and advance 64, 'B'
with bearing.x 2) the second quad of "AB" starts at x = 3, while
`bearing.x('A') + advance('A')/64 + bearing.x('B') = 4`.  In `cacheAB2` ('A' with
bearing.x 0 and advance 96) it starts at x = 3, while the formula gives 7/2. -/
theorem RenderText_AB_second_origin_counterexample :
    (cacheAB.contains (charCode 'A') = true ∧ cacheAB.contains (charCode 'B') = true
      ∧ specSecondOrigin cacheAB = 4
      ∧ ¬ ∃ d, (draws glInitial (RenderText cacheAB 0 0 [charCode 'A', charCode 'B']
            0 0 1 0 0).gl)[1]? = some d
          ∧ leftEdge d.vertices = List.replicate 3 (specSecondOrigin cacheAB))
    ∧ (cacheAB2.contains (charCode 'A') = true ∧ cacheAB2.contains (charCode 'B') = true
      ∧ specSecondOrigin cacheAB2 = 7 / 2
      ∧ ¬ ∃ d, (draws glInitial (RenderText cacheAB2 0 0 [charCode 'A', charCode 'B']
            0 0 1 0 0).gl)[1]? = some d
          ∧ leftEdge d.vertices = List.replicate 3 (specSecondOrigin cacheAB2)) := by
  have hA : cacheAB.glyph (charCode 'A')
      = { TextureID := 1, Size := ⟨10, 12⟩, Bearing := ⟨1, 11⟩, Advance := 64 } := rfl
  have hB : cacheAB.glyph (charCode 'B')
      = { TextureID := 2, Size := ⟨9, 12⟩, Bearing := ⟨2, 12⟩, Advance := 640 } := rfl
  have hA2 : cacheAB2.glyph (charCode 'A')
      = { TextureID := 1, Size := ⟨10, 12⟩, Bearing := ⟨0, 11⟩, Advance := 96 } := rfl
  have hB2 : cacheAB2.glyph (charCode 'B')
      = { TextureID := 2, Size := ⟨9, 12⟩, Bearing := ⟨2, 12⟩, Advance := 640 } := rfl
  have s1 : specSecondOrigin cacheAB = 4 := by
    simp only [specSecondOrigin, hA, hB]; norm_num
  have s2 : specSecondOrigin cacheAB2 = 7 / 2 := by
    simp only [specSecondOrigin, hA2, hB2]; norm_num
  have f1 : (⌊((64 : Int) : ℚ) / 64⌋ : ℚ) = 1 := by
    rw [← shiftRight_six]; rfl
  have f2 : (⌊((96 : Int) : ℚ) / 64⌋ : ℚ) = 1 := by
    rw [← shiftRight_six]; rfl
  refine ⟨⟨by decide, by decide, s1, ?_⟩, ⟨by decide, by decide, s2, ?_⟩⟩
  · rintro ⟨d, hd, he⟩
    rw [second_leftEdge cacheAB _ _ rfl rfl] at hd
    cases hd
    rw [leftEdge_quadVertices, s1, f1] at he
    norm_num [List.replicate] at he
  · rintro ⟨d, hd, he⟩
    rw [second_leftEdge cacheAB2 _ _ rfl rfl] at hd
    cases hd
    rw [leftEdge_quadVertices, s2, f2] at he
    norm_num [List.replicate] at he


/-- Draw call number `i` of `RenderText`: texture and quad of byte `i`, at the
pen reached after the first `i` bytes. -/
theorem draws_RenderText_getElem? (st : GLState) (characters_ : CharMap) (program : Nat)
    (time : ℚ) (text : List Int) (x y scale : ℚ) (VAO VBO : Nat) (i : Nat) (c : Int)
    (hc : text[i]? = some c) :
    (draws st (RenderText characters_ program time text x y scale VAO VBO).gl)[i]?
      = some { texture := (characters_.glyph c).TextureID,
               vertices := quadVertices (characters_.glyph c)
                 (RenderText characters_ program time (text.take i) x y scale VAO VBO).pen
                 y scale } := by
  rw [draws_RenderText, RenderText_pen]
  exact draws_renderLoop_getElem? VBO y scale text characters_ x st _ i c hc

theorem positionsAt_zero_zero (ch : Character) (x y scale : ℚ) :
    positionsAt (quadVertices ch x y scale) 0 0
      = List.replicate 2
          (x + (ch.Bearing.x : ℚ) * scale, y + (ch.Bearing.y : ℚ) * scale) := by
  have e : y - ((ch.Size.y : ℚ) - (ch.Bearing.y : ℚ)) * scale + (ch.Size.y : ℚ) * scale
      = y + (ch.Bearing.y : ℚ) * scale := by
    ring
  simp [positionsAt, quadVertices, List.replicate, e]

theorem positionsAt_zero_one (ch : Character) (x y scale : ℚ) :
    positionsAt (quadVertices ch x y scale) 0 1 = [specTopLeft ch x y scale] := by
  simp [positionsAt, quadVertices, specTopLeft]

/-- C4, as amended.  For the glyph `characters_[c]` of byte `i`, drawn with the
pen at `(pen.x, y)`, the quad vertices that carry texture coordinate `(0, 0)`
(vertices 0 and 3) are placed at
`(pen.x + bearing.x·scale, y + bearing.y·scale)`, the upper left corner of the
quad on screen; the position
`(pen.x + bearing.x·scale, y − (size.y − bearing.y)·scale)` of the specification
is where the vertex with texture coordinate `(0, 1)` is placed. -/
theorem RenderText_texture_origin_vertex (characters_ : CharMap) (program : Nat) (time : ℚ)
    (text : List Int) (x y scale : ℚ) (VAO VBO : Nat) (st : GLState) (i : Nat) (c : Int)
    (hc : text[i]? = some c) :
    ∃ d, (draws st (RenderText characters_ program time text x y scale VAO VBO).gl)[i]?
        = some d
      ∧ positionsAt d.vertices 0 0
          = List.replicate 2
              ((RenderText characters_ program time (text.take i) x y scale VAO VBO).pen
                  + ((characters_.glyph c).Bearing.x : ℚ) * scale,
                y + ((characters_.glyph c).Bearing.y : ℚ) * scale)
      ∧ positionsAt d.vertices 0 1
          = [specTopLeft (characters_.glyph c)
              (RenderText characters_ program time (text.take i) x y scale VAO VBO).pen
              y scale] :=
  ⟨_, draws_RenderText_getElem? st characters_ program time text x y scale VAO VBO i c hc,
    positionsAt_zero_zero _ _ _ _, positionsAt_zero_one _ _ _ _⟩

/-- Witness for C4: the glyph of `'A'` in `cacheBaseline`, pen `(0, 0)`, scale 1. -/
theorem RenderText_texture_origin_vertex_witness :
    ∃ d, (draws glInitial (RenderText cacheBaseline 0 0 [charCode 'A'] 0 0 1 0 0).gl)[0]?
        = some d
      ∧ positionsAt d.vertices 0 0
          = List.replicate 2
              ((RenderText cacheBaseline 0 0 ([charCode 'A'].take 0) 0 0 1 0 0).pen
                  + ((cacheBaseline.glyph (charCode 'A')).Bearing.x : ℚ) * 1,
                0 + ((cacheBaseline.glyph (charCode 'A')).Bearing.y : ℚ) * 1)
      ∧ positionsAt d.vertices 0 1
          = [specTopLeft (cacheBaseline.glyph (charCode 'A'))
              (RenderText cacheBaseline 0 0 ([charCode 'A'].take 0) 0 0 1 0 0).pen 0 1] :=
  RenderText_texture_origin_vertex cacheBaseline 0 0 [charCode 'A'] 0 0 1 0 0 glInitial 0
    (charCode 'A') rfl

/-- C4 as stated fails.  For a glyph of size `(1, 1)` with bearing `(0, 1)` drawn
with the pen at `(0, 0)` and scale 1, the specification places the vertex with
texture coordinate `(0, 0)` at `(0, 0)`; the code places both such vertices at
`(0, 1)`. -/
theorem RenderText_texture_origin_vertex_counterexample :
    cacheBaseline.contains (charCode 'A') = true
    ∧ (0 : ℚ) < 1
    ∧ specTopLeft (cacheBaseline.glyph (charCode 'A')) 0 0 1 = (0, 0)
    ∧ (∃ d, (draws glInitial (RenderText cacheBaseline 0 0 [charCode 'A'] 0 0 1 0 0).gl)[0]?
          = some d
        ∧ positionsAt d.vertices 0 0 = [(0, 1), (0, 1)])
    ∧ ¬ ∃ d, (draws glInitial (RenderText cacheBaseline 0 0 [charCode 'A'] 0 0 1 0 0).gl)[0]?
          = some d
        ∧ ∃ p ∈ positionsAt d.vertices 0 0,
            p = specTopLeft (cacheBaseline.glyph (charCode 'A')) 0 0 1 := by
  have hg : cacheBaseline.glyph (charCode 'A') = glyphOnBaseline := rfl
  have hs : specTopLeft (cacheBaseline.glyph (charCode 'A')) 0 0 1 = (0, 0) := by
    rw [hg]
    simp [specTopLeft, glyphOnBaseline]
  have hd := draws_RenderText_getElem? glInitial cacheBaseline 0 0 [charCode 'A'] 0 0 1 0 0 0
    (charCode 'A') rfl
  have hp : (RenderText cacheBaseline 0 0 ([charCode 'A'].take 0) 0 0 1 0 0).pen = 0 := rfl
  rw [hp, hg] at hd
  have hq : positionsAt (quadVertices glyphOnBaseline 0 0 1) 0 0 = [(0, 1), (0, 1)] := by
    rw [positionsAt_zero_zero]
    simp [glyphOnBaseline, List.replicate]
  refine ⟨by decide, by norm_num, hs, ⟨_, hd, hq⟩, ?_⟩
  rintro ⟨d, h1, p, h2, h3⟩
  rw [hd] at h1
  cases h1
  rw [hq] at h2
  rw [hs] at h3
  subst h3
  simp [Prod.ext_iff] at h2

theorem quadWidth_quadVertices (ch : Character) (x y scale : ℚ)
    (h : 0 ≤ (ch.Size.x : ℚ) * scale) :
    quadWidth (quadVertices ch x y scale) = (ch.Size.x : ℚ) * scale := by
  have h1 : x + (ch.Bearing.x : ℚ) * scale
      ≤ x + (ch.Bearing.x : ℚ) * scale + (ch.Size.x : ℚ) * scale := by linarith
  simp [quadWidth, quadVertices, maxOf, minOf, h1]

theorem quadHeight_quadVertices (ch : Character) (x y scale : ℚ)
    (h : 0 ≤ (ch.Size.y : ℚ) * scale) :
    quadHeight (quadVertices ch x y scale) = (ch.Size.y : ℚ) * scale := by
  have h1 : y - ((ch.Size.y : ℚ) - (ch.Bearing.y : ℚ)) * scale
      ≤ y - ((ch.Size.y : ℚ) - (ch.Bearing.y : ℚ)) * scale + (ch.Size.y : ℚ) * scale := by
    linarith
  simp [quadHeight, quadVertices, maxOf, minOf, h1]


/-- C9.  For the glyph `characters_[c]` of byte `i` (size non-negative, as the
data model has it) and a scale `> 0`, the emitted quad has width `size.x·scale`
and height `size.y·scale`, width and height being the difference between the
maximum and minimum vertex x, resp. y.  With scale 1 the dimensions are the
glyph's pixel size, and the dimensions at scale `s` are `s` times the dimensions
at scale 1. -/
theorem RenderText_quad_dimensions (characters_ : CharMap) (program : Nat) (time : ℚ)
    (text : List Int) (x y scale : ℚ) (VAO VBO : Nat) (st : GLState) (i : Nat) (c : Int)
    (hc : text[i]? = some c) (hs : 0 < scale)
    (hw : 0 ≤ (characters_.glyph c).Size.x) (hh : 0 ≤ (characters_.glyph c).Size.y) :
    ∃ d d1,
      (draws st (RenderText characters_ program time text x y scale VAO VBO).gl)[i]? = some d
      ∧ (draws st (RenderText characters_ program time text x y 1 VAO VBO).gl)[i]? = some d1
      ∧ quadWidth d.vertices = ((characters_.glyph c).Size.x : ℚ) * scale
      ∧ quadHeight d.vertices = ((characters_.glyph c).Size.y : ℚ) * scale
      ∧ quadWidth d1.vertices = ((characters_.glyph c).Size.x : ℚ)
      ∧ quadHeight d1.vertices = ((characters_.glyph c).Size.y : ℚ)
      ∧ quadWidth d.vertices = scale * quadWidth d1.vertices
      ∧ quadHeight d.vertices = scale * quadHeight d1.vertices := by
  have hw0 : (0 : ℚ) ≤ ((characters_.glyph c).Size.x : ℚ) := by exact_mod_cast hw
  have hh0 : (0 : ℚ) ≤ ((characters_.glyph c).Size.y : ℚ) := by exact_mod_cast hh
  have hws : 0 ≤ ((characters_.glyph c).Size.x : ℚ) * scale := mul_nonneg hw0 hs.le
  have hhs : 0 ≤ ((characters_.glyph c).Size.y : ℚ) * scale := mul_nonneg hh0 hs.le
  have hw1 : 0 ≤ ((characters_.glyph c).Size.x : ℚ) * 1 := by simpa using hw0
  have hh1 : 0 ≤ ((characters_.glyph c).Size.y : ℚ) * 1 := by simpa using hh0
  refine ⟨_, _,
    draws_RenderText_getElem? st characters_ program time text x y scale VAO VBO i c hc,
    draws_RenderText_getElem? st characters_ program time text x y 1 VAO VBO i c hc,
    quadWidth_quadVertices _ _ _ _ hws, quadHeight_quadVertices _ _ _ _ hhs, ?_, ?_, ?_, ?_⟩
  · rw [quadWidth_quadVertices _ _ _ _ hw1, mul_one]
  · rw [quadHeight_quadVertices _ _ _ _ hh1, mul_one]
  · rw [quadWidth_quadVertices _ _ _ _ hws, quadWidth_quadVertices _ _ _ _ hw1]
    ring
  · rw [quadHeight_quadVertices _ _ _ _ hhs, quadHeight_quadVertices _ _ _ _ hh1]
    ring

/-- Witness for C9: byte 1 of "AB" in `cacheAB` at scale 3. -/
theorem RenderText_quad_dimensions_witness :
    ∃ d d1,
      (draws glInitial
        (RenderText cacheAB 0 0 [charCode 'A', charCode 'B'] 0 0 3 0 0).gl)[1]? = some d
      ∧ (draws glInitial
        (RenderText cacheAB 0 0 [charCode 'A', charCode 'B'] 0 0 1 0 0).gl)[1]? = some d1
      ∧ quadWidth d.vertices = ((cacheAB.glyph (charCode 'B')).Size.x : ℚ) * 3
      ∧ quadHeight d.vertices = ((cacheAB.glyph (charCode 'B')).Size.y : ℚ) * 3
      ∧ quadWidth d1.vertices = ((cacheAB.glyph (charCode 'B')).Size.x : ℚ)
      ∧ quadHeight d1.vertices = ((cacheAB.glyph (charCode 'B')).Size.y : ℚ)
      ∧ quadWidth d.vertices = 3 * quadWidth d1.vertices
      ∧ quadHeight d.vertices = 3 * quadHeight d1.vertices :=
  RenderText_quad_dimensions cacheAB 0 0 [charCode 'A', charCode 'B'] 0 0 3 0 0 glInitial 1
    (charCode 'B') rfl (by norm_num) (by decide) (by decide)

theorem quadVertices_zero (x y scale : ℚ) :
    (quadVertices Character.zero x y scale).map (fun v => (v.x, v.y))
      = List.replicate 6 (x, y) := by
  simp [quadVertices, Character.zero, List.replicate]

theorem penStep_zero (scale : ℚ) : penStep Character.zero scale = 0 := by
  simp [penStep, Character.zero]

theorem renderLoop_pen_take_succ (VBO : Nat) (y scale : ℚ) (text : List Int) (m : CharMap)
    (x : ℚ) (i : Nat) (c : Int) (hc : text[i]? = some c) :
    (renderLoop VBO y scale (text.take (i + 1)) m x).pen
      = (renderLoop VBO y scale (text.take i) m x).pen + penStep (m.glyph c) scale := by
  rw [renderLoop_pen, renderLoop_pen, List.take_succ, hc]
  simp [add_assoc]

/-- C10.  For a byte `c` at position `i` of the text that is not a key of the
cache, `RenderText` still issues draw call `i`: it binds texture 0, all six
vertex positions equal the pen position `(pen.x, y)` reached after the first `i`
bytes, so the quad has width and height 0, the pen after byte `i` is the pen
before it, and after the call the cache holds the value-initialised `Character`
under `c`. -/
theorem RenderText_absent_byte (characters_ : CharMap) (program : Nat) (time : ℚ)
    (text : List Int) (x y scale : ℚ) (VAO VBO : Nat) (st : GLState) (i : Nat) (c : Int)
    (hc : text[i]? = some c) (habs : characters_.contains c = false) :
    ∃ d, (draws st (RenderText characters_ program time text x y scale VAO VBO).gl)[i]?
        = some d
      ∧ d.texture = 0
      ∧ d.vertices.map (fun v => (v.x, v.y))
          = List.replicate 6
              ((RenderText characters_ program time (text.take i) x y scale VAO VBO).pen, y)
      ∧ quadWidth d.vertices = 0
      ∧ quadHeight d.vertices = 0
      ∧ (RenderText characters_ program time (text.take (i + 1)) x y scale VAO VBO).pen
          = (RenderText characters_ program time (text.take i) x y scale VAO VBO).pen
      ∧ (RenderText characters_ program time text x y scale VAO VBO).characters_.find? c
          = some Character.zero := by
  have hnone : characters_.find? c = none := by
    unfold CharMap.contains at habs
    cases h : characters_.find? c with
    | none => rfl
    | some w => simp [h] at habs
  have hg : characters_.glyph c = Character.zero := glyph_of_absent hnone
  have hd := draws_RenderText_getElem? st characters_ program time text x y scale VAO VBO i c hc
  rw [hg] at hd
  refine ⟨_, hd, rfl, quadVertices_zero _ _ _, ?_, ?_, ?_, ?_⟩
  · rw [quadWidth_quadVertices _ _ _ _ (by simp [Character.zero])]
    simp [Character.zero]
  · rw [quadHeight_quadVertices _ _ _ _ (by simp [Character.zero])]
    simp [Character.zero]
  · rw [RenderText_pen, RenderText_pen, renderLoop_pen_take_succ VBO y scale text _ x i c hc,
      hg, penStep_zero, add_zero]
  · rw [RenderText_characters, renderLoop_find?, hnone]
    have hmem : c ∈ text := List.getElem?_mem hc
    simp [hmem]

/-- Witness for C10: the byte `'B'` of "AB" is not a key of `cacheA`. -/
theorem RenderText_absent_byte_witness :
    ∃ d, (draws glInitial
          (RenderText cacheA 0 0 [charCode 'A', charCode 'B'] 0 0 1 0 0).gl)[1]? = some d
      ∧ d.texture = 0
      ∧ d.vertices.map (fun v => (v.x, v.y))
          = List.replicate 6
              ((RenderText cacheA 0 0 ([charCode 'A', charCode 'B'].take 1) 0 0 1 0 0).pen, 0)
      ∧ quadWidth d.vertices = 0
      ∧ quadHeight d.vertices = 0
      ∧ (RenderText cacheA 0 0 ([charCode 'A', charCode 'B'].take (1 + 1)) 0 0 1 0 0).pen
          = (RenderText cacheA 0 0 ([charCode 'A', charCode 'B'].take 1) 0 0 1 0 0).pen
      ∧ (RenderText cacheA 0 0 [charCode 'A', charCode 'B'] 0 0 1 0 0).characters_.find?
            (charCode 'B')
          = some Character.zero :=
  RenderText_absent_byte cacheA 0 0 [charCode 'A', charCode 'B'] 0 0 1 0 0 glInitial 1
    (charCode 'B') rfl (by decide)


/-- The draw calls of the loop do not depend on the OpenGL state it starts in:
every iteration binds its texture and writes the buffer before it draws. -/
theorem draws_renderLoop_start (VBO : Nat) (y scale : ℚ) (text : List Int) :
    ∀ (m : CharMap) (x : ℚ) (st1 st2 : GLState) (tail : List GLCmd),
      (∀ s1 s2, draws s1 tail = draws s2 tail) →
      draws st1 ((renderLoop VBO y scale text m x).gl ++ tail)
        = draws st2 ((renderLoop VBO y scale text m x).gl ++ tail) := by
  intro m x st1 st2 tail h
  cases text with
  | nil => simpa [renderLoop_nil] using h st1 st2
  | cons c cs =>
    rw [renderLoop_cons_gl, List.append_assoc, draws_glyphCmds, draws_glyphCmds]

/-- C5.  Two consecutive calls of `RenderText` on the same renderer with the same
text, origin and scale produce the same sequence of draw parameters (bound
texture and the six vertices of each draw), whatever entries the first call
inserted into the cache, whatever the clock values `time1`, `time2` sent as the
`time` uniform and whatever OpenGL state each call starts in; with the same
clock value the two calls issue the same OpenGL calls altogether. -/
theorem RenderText_twice_same_draws (characters_ : CharMap) (program : Nat) (time1 time2 : ℚ)
    (text : List Int) (x y scale : ℚ) (VAO VBO : Nat) (st1 st2 : GLState) :
    draws st2
        (RenderText (RenderText characters_ program time1 text x y scale VAO VBO).characters_
          program time2 text x y scale VAO VBO).gl
      = draws st1 (RenderText characters_ program time1 text x y scale VAO VBO).gl
    ∧ (RenderText (RenderText characters_ program time1 text x y scale VAO VBO).characters_
          program time1 text x y scale VAO VBO).gl
      = (RenderText characters_ program time1 text x y scale VAO VBO).gl := by
  have hglyph : ∀ k,
      (RenderText characters_ program time1 text x y scale VAO VBO).characters_.glyph k
        = characters_.glyph k := by
    intro k
    rw [RenderText_characters, renderLoop_glyph]
  have hgl := (renderLoop_congr VBO y scale text _ characters_ x hglyph).2
  refine ⟨?_, ?_⟩
  · rw [draws_RenderText, draws_RenderText, hgl]
    exact draws_renderLoop_start VBO y scale text characters_ x st2 st1 renderEpilogue
      (fun s1 s2 => by rw [draws_epilogue, draws_epilogue])
  · show renderPrologue program VAO time1 ++ _ ++ renderEpilogue
      = renderPrologue program VAO time1 ++ _ ++ renderEpilogue
    rw [hgl]

/-- C7, as amended.  `RenderText` leaves the cache as it was when every byte of
the text is a key of the cache.  For any text, every entry present before the
call is present with the same value after it, and the keys absent before are
present afterwards exactly when they occur in the text, with the
value-initialised `Character` as entry. -/
theorem RenderText_cache_frame (characters_ : CharMap) (program : Nat) (time : ℚ)
    (text : List Int) (x y scale : ℚ) (VAO VBO : Nat) :
    ((∀ c ∈ text, characters_.contains c = true) →
      (RenderText characters_ program time text x y scale VAO VBO).characters_ = characters_)
    ∧ ∀ k : Int,
        (RenderText characters_ program time text x y scale VAO VBO).characters_.find? k
          = match characters_.find? k with
            | some w => some w
            | none => if k ∈ text then some Character.zero else none := by
  refine ⟨fun h => ?_, fun k => ?_⟩
  · rw [RenderText_characters]
    exact renderLoop_characters_of_present VBO y scale text characters_ x h
  · rw [RenderText_characters]
    exact renderLoop_find? VBO y scale text characters_ x k

/-- Witness for C7: "AB" rendered with `cacheAB`, which has both bytes. -/
theorem RenderText_cache_frame_witness :
    (RenderText cacheAB 0 0 [charCode 'A', charCode 'B'] 0 0 1 0 0).characters_ = cacheAB :=
  (RenderText_cache_frame cacheAB 0 0 [charCode 'A', charCode 'B'] 0 0 1 0 0).1 (by decide)

/-- C7 as stated fails: rendering "B" with `cacheA`, which has no entry for
`'B'`, leaves a cache that has one. -/
theorem RenderText_cache_frame_counterexample :
    cacheA.contains (charCode 'B') = false
    ∧ (RenderText cacheA 0 0 [charCode 'B'] 0 0 1 0 0).characters_.contains (charCode 'B')
        = true
    ∧ (RenderText cacheA 0 0 [charCode 'B'] 0 0 1 0 0).characters_
        = cacheA ++ [(charCode 'B', Character.zero)]
    ∧ (RenderText cacheA 0 0 [charCode 'B'] 0 0 1 0 0).characters_ ≠ cacheA := by
  have h : (RenderText cacheA 0 0 [charCode 'B'] 0 0 1 0 0).characters_
      = cacheA ++ [(charCode 'B', Character.zero)] := rfl
  refine ⟨by decide, ?_, h, ?_⟩
  · rw [h]; decide
  · rw [h]; decide


/-! ## Claims about `Init` -/

/-- C6, evaluated where it fails.  When the library initialises and the face
opens but the probe load of `'X'` fails, `Init` returns `true` (the `return -1`
of `TextRenderer.cpp:29` converted to `bool`) and leaves the cache as it was; the
two earlier failures return `false`. -/
theorem Init_probe_failure_returns_true (genTexture : Nat → Nat) (characters_ : CharMap) :
    ftProbeFails.initError = 0
    ∧ ftProbeFails.newFaceError = 0
    ∧ ftProbeFails.loadChar 'X'.toNat = none
    ∧ Init ftProbeFails genTexture characters_ = (true, characters_)
    ∧ Init ftInitFails genTexture characters_ = (false, characters_)
    ∧ Init ftFaceFails genTexture characters_ = (false, characters_) := by
  refine ⟨rfl, rfl, rfl, ?_, ?_, ?_⟩
  · simp [Init, ftProbeFails, boolOfInt]
  · simp [Init, ftInitFails]
  · simp [Init, ftFaceFails]

theorem toInt32_of_lt (n : Nat) (h : n < 2 ^ 31) : toInt32 n = (n : Int) := by
  have h1 : n % 2 ^ 32 = n := Nat.mod_eq_of_lt (by omega)
  unfold toInt32
  rw [h1, if_pos h]

theorem initBody_find? (ft : FreeType) (genTexture : Nat → Nat) (s : InitState) (c : Nat)
    (k : Int) :
    (initBody ft genTexture s c).characters_.find? k
      = match s.characters_.find? k with
        | some w => some w
        | none =>
          match ft.loadChar c with
          | some g => if k = (c : Int) then some (characterOf (genTexture s.textures) g) else none
          | none => none := by
  unfold initBody
  cases hl : ft.loadChar c with
  | none => cases hk : s.characters_.find? k <;> simp
  | some g => simp only [find?_insert]

/-- Keys of the cache after the loop of `Init` over the code points `cs`. -/
theorem initLoop_contains (ft : FreeType) (genTexture : Nat → Nat) (cs : List Nat) :
    ∀ (s : InitState) (k : Int),
      (cs.foldl (initBody ft genTexture) s).characters_.contains k = true
        ↔ (s.characters_.contains k = true
            ∨ ∃ c ∈ cs, (c : Int) = k ∧ (ft.loadChar c).isSome = true) := by
  induction cs with
  | nil => intro s k; simp
  | cons c cs ih =>
    intro s k
    rw [List.foldl_cons, ih]
    have hb : (initBody ft genTexture s c).characters_.contains k = true
        ↔ (s.characters_.contains k = true ∨ ((c : Int) = k ∧ (ft.loadChar c).isSome = true)) := by
      unfold CharMap.contains
      rw [initBody_find?]
      cases hk : s.characters_.find? k with
      | some w => simp
      | none =>
        cases hl : ft.loadChar c with
        | none => simp
        | some g =>
          by_cases e : k = (c : Int)
          · simp [e]
          · have e2 : ¬ (c : Int) = k := fun h => e h.symm
            simp [e, e2]
    rw [hb]
    simp only [List.mem_cons, exists_eq_or_imp]
    tauto

/-- Entries of the cache after the loop of `Init` over the code points `cs`. -/
theorem initLoop_find? (ft : FreeType) (genTexture : Nat → Nat) (cs : List Nat) :
    ∀ (s : InitState) (k : Int) (ch : Character),
      (cs.foldl (initBody ft genTexture) s).characters_.find? k = some ch →
        s.characters_.find? k = some ch
          ∨ ∃ c ∈ cs, (c : Int) = k
              ∧ ∃ g t, ft.loadChar c = some g ∧ ch = characterOf t g := by
  induction cs with
  | nil => intro s k ch h; exact Or.inl h
  | cons c cs ih =>
    intro s k ch h
    rw [List.foldl_cons] at h
    rcases ih _ k ch h with h1 | ⟨d, hd, hk, g, t, hg, hch⟩
    · rw [initBody_find?] at h1
      cases hk : s.characters_.find? k with
      | some w =>
        rw [hk] at h1
        exact Or.inl h1
      | none =>
        rw [hk] at h1
        cases hl : ft.loadChar c with
        | none => rw [hl] at h1; cases h1
        | some g =>
          rw [hl] at h1
          by_cases e : k = (c : Int)
          · simp only [if_pos e, Option.some.injEq] at h1
            exact Or.inr ⟨c, List.mem_cons_self c cs, e.symm, g, _, hl, h1.symm⟩
          · simp only [if_neg e] at h1
            cases h1
    · exact Or.inr ⟨d, List.mem_cons_of_mem c hd, hk, g, t, hg, hch⟩

/-- C8.  With the rasterizer a partial function `ft.loadChar` on code points:
when `Init` starts from an empty cache and its setup steps succeed (library
initialised, face opened, probe load of `'X'` successful), it returns `true`
however many code points fail to load; a key `k` is present afterwards exactly
when `0 ≤ k ≤ 127` and the rasterization of `k` succeeded; and the entry of a
present key `k` has the bearing `(bitmap_left, bitmap_top)` and the advance
`advance.x` reported for `k`, and as size the reported `(width, rows)` converted
to `int`, which is `(width, rows)` itself when both are below `2^31`. -/
theorem Init_cache (ft : FreeType) (genTexture : Nat → Nat)
    (h1 : ft.initError = 0) (h2 : ft.newFaceError = 0)
    (h3 : (ft.loadChar 'X'.toNat).isSome = true) :
    (Init ft genTexture []).1 = true
    ∧ (∀ k : Int, (Init ft genTexture []).2.contains k = true
        ↔ (0 ≤ k ∧ k ≤ 127 ∧ (ft.loadChar k.toNat).isSome = true))
    ∧ ∀ (k : Int) (ch : Character), (Init ft genTexture []).2.find? k = some ch →
        ∃ g, ft.loadChar k.toNat = some g
          ∧ ch.Size = ⟨toInt32 g.width, toInt32 g.rows⟩
          ∧ (g.width < 2 ^ 31 → g.rows < 2 ^ 31 → ch.Size = ⟨(g.width : Int), (g.rows : Int)⟩)
          ∧ ch.Bearing = ⟨g.bitmap_left, g.bitmap_top⟩
          ∧ ch.Advance = g.advance_x := by
  have hX : ¬ (ft.loadChar 'X'.toNat).isNone = true := by
    cases h : ft.loadChar 'X'.toNat with
    | none => rw [h] at h3; cases h3
    | some g => simp
  have hI : Init ft genTexture []
      = (true, ((List.range 128).foldl (initBody ft genTexture) ⟨[], 0⟩).characters_) := by
    unfold Init
    rw [if_neg (by simp [h1]), if_neg (by simp [h2]), if_neg hX]
  rw [hI]
  refine ⟨rfl, fun k => ?_, fun k ch h => ?_⟩
  · show (((List.range 128).foldl (initBody ft genTexture) ⟨[], 0⟩).characters_.contains k
      = true) ↔ _
    rw [initLoop_contains]
    constructor
    · rintro (h | ⟨c, hc, hk, hl⟩)
      · simp [CharMap.contains, CharMap.find?] at h
      · rw [List.mem_range] at hc
        subst hk
        refine ⟨by omega, by omega, ?_⟩
        simpa using hl
    · rintro ⟨h0, h127, hl⟩
      refine Or.inr ⟨k.toNat, ?_, ?_, hl⟩
      · rw [List.mem_range]; omega
      · omega
  · rcases initLoop_find? ft genTexture _ _ k ch h with h0 | ⟨c, _, hk, g, t, hg, hch⟩
    · simp [CharMap.find?] at h0
    · subst hk
      subst hch
      refine ⟨g, by simpa using hg, rfl, ?_, rfl, rfl⟩
      intro hw hr
      show (⟨toInt32 g.width, toInt32 g.rows⟩ : IVec2) = _
      rw [toInt32_of_lt _ hw, toInt32_of_lt _ hr]

/-- Witness for C8 with `ftEven`, where every odd code point fails: `Init`
returns `true` and `'X'` (code 88) is a key afterwards. -/
theorem Init_cache_witness :
    (Init ftEven (fun n => n + 1) []).1 = true
    ∧ ((Init ftEven (fun n => n + 1) []).2.contains 88 = true
        ↔ ((0 : Int) ≤ 88 ∧ (88 : Int) ≤ 127
            ∧ (ftEven.loadChar (88 : Int).toNat).isSome = true)) :=
  ⟨(Init_cache ftEven (fun n => n + 1) rfl rfl rfl).1,
    (Init_cache ftEven (fun n => n + 1) rfl rfl rfl).2.1 88⟩


end TextRenderer
